import Mathlib

/-!
Shallow embedding of the DataDock backend (files/folders tree, role grants,
soft-delete trash, public share links) together with theorems that check the
specification's claims against the translated route-handler logic.

Conventions of the embedding:
- rows of the relational store are Lean structures; a table is a `List` of rows;
- supabase's `.single()` (error unless exactly one row matches) is the
  function `single`;
- timestamps are integer milliseconds since the epoch (JS `Date.getTime()`);
- JS truthiness of nullable columns is modelled explicitly (`Option`, and the
  zero-is-falsy cases are noted at each use site);
- each route handler becomes a function from a database value (plus request
  data and the current time) to a result and the updated database.
-/

namespace DataDock

/-- Resource row: covers both the `files` and the `folders` table (the union of
their columns as used by the handlers). For a file, `parentId` is `folder_id`;
for a folder it is `parent_id`. -/
structure ResourceRow where
  id : Nat
  name : String
  ownerEmail : String
  parentId : Option Nat
  isStarred : Bool
  isDeleted : Bool
  deletedAt : Option Int
  createdAt : Int
  updatedAt : Int
  deriving Repr, DecidableEq

/-- Resource kind tag, the `resourceType` request field (`'file' | 'folder'`). -/
inductive ResourceType where
  | file
  | folder
  deriving Repr, DecidableEq

/-- Permission grant row of the `permissions` table. `granteeEmail` is the
`user_email` / `grantee_email` column, `role` the `permission_type` / `role`
column. -/
structure PermissionRow where
  id : Nat
  resourceType : ResourceType
  resourceId : Nat
  granteeEmail : String
  role : String
  grantedBy : String
  deriving Repr, DecidableEq

/-- Shared-link row of the `shared_links` table. -/
structure LinkRow where
  id : Nat
  linkToken : String
  resourceType : ResourceType
  resourceId : Nat
  role : String
  expiresAt : Option Int
  maxAccesses : Option Nat
  accessCount : Nat
  createdBy : String
  deriving Repr, DecidableEq

/-- The persisted state: the four tables the handlers touch. -/
structure DB where
  files : List ResourceRow
  folders : List ResourceRow
  permissions : List PermissionRow
  links : List LinkRow
  deriving Repr, DecidableEq

/-- Supabase `.single()`: succeeds exactly when the filtered result has one
row; zero or several rows is an error (modelled as `none`). -/
def single {α : Type} : List α → Option α
  | [x] => some x
  | _ => none

/-- Table chosen by `resourceType === 'file' ? 'files' : 'folders'`. -/
def resourceTable (db : DB) (rt : ResourceType) : List ResourceRow :=
  match rt with
  | .file => db.files
  | .folder => db.folders

/-- Rank table of `src/utils/permissions.js` (`permissionHierarchy`):
viewer 1, editor 2, admin 3, owner 4, any other string 0. -/
def permissionHierarchy (r : String) : Nat :=
  if r == "viewer" then 1
  else if r == "editor" then 2
  else if r == "admin" then 3
  else if r == "owner" then 4
  else 0

/-- Three-level rank table used inside `getPermittedIds`
(viewer 1, editor 2, admin 3, anything else 0). -/
def permissionHierarchy3 (r : String) : Nat :=
  if r == "viewer" then 1
  else if r == "editor" then 2
  else if r == "admin" then 3
  else 0

/-- Grant lookup of `hasPermission`: the single permission row for
`(resource_id, resource_type, user_email)`. -/
def findGrant (db : DB) (rt : ResourceType) (rid : Nat) (userEmail : String) :
    Option PermissionRow :=
  single (db.permissions.filter
    (fun p => p.resourceId == rid && p.resourceType == rt && p.granteeEmail == userEmail))

/-- Resource lookup of `hasPermission`: `.select(...).eq('id', resourceId).single()`
on the table named by the resource type. No deletion filter is applied. -/
def findResource (db : DB) (rt : ResourceType) (rid : Nat) : Option ResourceRow :=
  single ((resourceTable db rt).filter (fun r => r.id == rid))

/-- `hasPermission` from `src/utils/permissions.js`: owner of the fetched row is
always allowed; otherwise the single grant row decides by rank comparison;
a missing resource or missing grant is not allowed. -/
def hasPermission (db : DB) (userEmail : String) (rt : ResourceType) (rid : Nat)
    (required : String) : Bool :=
  match findResource db rt rid with
  | none => false
  | some resource =>
    if resource.ownerEmail == userEmail then true
    else
      match findGrant db rt rid userEmail with
      | none => false
      | some p => permissionHierarchy p.role ≥ permissionHierarchy required

/-- `getPermittedIds` from `src/utils/permissions.js`: ids owned by the user
plus the granted resource ids whose role rank (three-level table) reaches the
required rank. -/
def getPermittedIds (db : DB) (userEmail : String) (rt : ResourceType)
    (required : String) : List Nat :=
  let ownedIds := ((resourceTable db rt).filter (fun r => r.ownerEmail == userEmail)).map (·.id)
  let sharedIds := (db.permissions.filter
    (fun p => p.resourceType == rt && p.granteeEmail == userEmail
      && permissionHierarchy3 p.role ≥ permissionHierarchy3 required)).map (·.resourceId)
  ownedIds ++ sharedIds

/-- Pagination record returned by `getPagination` (`from`/`to` are row-range
bounds; named `fromIdx`/`toIdx` because `from` is a Lean keyword). -/
structure Pagination where
  page : Int
  pageSize : Int
  fromIdx : Int
  toIdx : Int
  deriving Repr, DecidableEq

/-- JS `parseInt(x, 10) || d`: a missing or non-numeric value parses to `NaN`
and falls back to `d`; a parsed `0` is falsy and also falls back to `d`.
The argument is the parsed integer, or `none` when parsing yields `NaN`. -/
def parseIntOr (v : Option Int) (d : Int) : Int :=
  match v with
  | none => d
  | some n => if n = 0 then d else n

/-- `getPagination` from `src/utils/pagination.js`. -/
def getPagination (qpage qpageSize : Option Int) : Pagination :=
  let page := max 1 (parseIntOr qpage 1)
  let pageSize := min 100 (max 1 (parseIntOr qpageSize 20))
  let fromIdx := (page - 1) * pageSize
  let toIdx := fromIdx + pageSize - 1
  { page := page, pageSize := pageSize, fromIdx := fromIdx, toIdx := toIdx }

/-- Result of `PUT /folders/:id/move` (`src/unnamed/part_005`, lines 550-615).
`notFound` is the 404 on the owner-scoped folder lookup, `parentNotFound` the
404 on the destination lookup, `accessDenied` the 403, `invalidArgument` the
400 "Cannot move folder into itself", `moved` the success payload. -/
inductive MoveResult where
  | notFound
  | parentNotFound
  | accessDenied
  | invalidArgument
  | moved (f : ResourceRow)
  deriving Repr, DecidableEq

/-- Folder-table update performed by the move handler: set `parent_id` and
`updated_at` on the rows matching the folder id. -/
def applyMove (folders : List ResourceRow) (id : Nat) (newParentId : Option Nat)
    (now : Int) : List ResourceRow :=
  folders.map (fun f =>
    if f.id == id then { f with parentId := newParentId, updatedAt := now } else f)

/-- `PUT /folders/:id/move` handler. The folder is fetched owner-scoped; for a
set destination the handler checks existence, access, and only the direct
self-parenting case `newParentId === id` before writing; there is no walk of
the destination's ancestor chain. -/
def moveFolder (db : DB) (userEmail : String) (id : Nat) (newParentId : Option Nat)
    (now : Int) : MoveResult × DB :=
  match single (db.folders.filter (fun f => f.id == id && f.ownerEmail == userEmail)) with
  | none => (.notFound, db)
  | some _folder =>
    match newParentId with
    | some np =>
      match single (db.folders.filter (fun f => f.id == np)) with
      | none => (.parentNotFound, db)
      | some newParent =>
        if newParent.ownerEmail != userEmail
            && !((getPermittedIds db userEmail .folder "viewer").contains np) then
          (.accessDenied, db)
        else if np == id then
          (.invalidArgument, db)
        else
          let folders' := applyMove db.folders id newParentId now
          (.moved { _folder with parentId := newParentId, updatedAt := now },
            { db with folders := folders' })
    | none =>
      let folders' := applyMove db.folders id none now
      (.moved { _folder with parentId := none, updatedAt := now },
        { db with folders := folders' })

/-- Result of `DELETE /folders/:id` (`src/unnamed/part_005`, lines 665-712). -/
inductive DeleteFolderResult where
  | notFound
  | deleted
  deriving Repr, DecidableEq

/-- `DELETE /folders/:id` handler: after the owner-scoped lookup it sets
`is_deleted` / `deleted_at` on the files whose `folder_id` is this folder and
whose `owner_email` is the caller, then removes the folder row itself with a
hard `.delete()`. -/
def deleteFolder (db : DB) (userEmail : String) (id : Nat) (now : Int) :
    DeleteFolderResult × DB :=
  match single (db.folders.filter (fun f => f.id == id && f.ownerEmail == userEmail)) with
  | none => (.notFound, db)
  | some _folder =>
    let files' := db.files.map (fun f =>
      if f.parentId == some id && f.ownerEmail == userEmail then
        { f with isDeleted := true, deletedAt := some now }
      else f)
    let folders' := db.folders.filter (fun f => !(f.id == id))
    (.deleted, { db with files := files', folders := folders' })

/-- Result of `POST /files/:id/restore` (`src/unnamed/part_004`, lines 438-484). -/
inductive RestoreResult where
  | notFoundInTrash
  | tooOld
  | restored
  deriving Repr, DecidableEq

/-- Thirty days in milliseconds: the restore-window width that
`thirtyDaysAgo.setDate(thirtyDaysAgo.getDate() - 30)` subtracts from `now`. -/
def thirtyDaysMs : Int := 30 * 86400000

/-- Trash lookup of the restore handler: owner-scoped, `is_deleted = true`,
`.single()`. -/
def findTrashedFile (db : DB) (userEmail : String) (id : Nat) : Option ResourceRow :=
  single (db.files.filter
    (fun f => f.id == id && f.ownerEmail == userEmail && f.isDeleted))

/-- `POST /files/:id/restore` handler. `new Date(file.deleted_at)` with a null
column is the epoch, hence `deletedAt.getD 0`; the window check is
`deletedDate < thirtyDaysAgo` (strict), and on success the update clears
`is_deleted` and `deleted_at` on the rows matching the id. -/
def restoreFile (db : DB) (userEmail : String) (id : Nat) (now : Int) :
    RestoreResult × DB :=
  match findTrashedFile db userEmail id with
  | none => (.notFoundInTrash, db)
  | some file =>
    if file.deletedAt.getD 0 < now - thirtyDaysMs then
      (.tooOld, db)
    else
      let files' := db.files.map (fun f =>
        if f.id == id then { f with isDeleted := false, deletedAt := none } else f)
      (.restored, { db with files := files' })

/-- Result of `PATCH /files/:id/rename` (`src/routes/files.routes.js`, lines
9-30). `missingName` is the 400 "name is required", `forbidden` the 403 after
`hasPermission(..., 'editor')` fails, `updateError` the 400 produced when the
owner-scoped `.update(...).select('*').single()` does not return exactly one
row, `renamed` the success payload. -/
inductive RenameResult where
  | missingName
  | forbidden
  | updateError
  | renamed (f : ResourceRow)
  deriving Repr, DecidableEq

/-- Row filter of the rename update:
`.eq('id', id).eq('owner_email', email).is('deleted_at', null)`. -/
def renameRowMatch (userEmail : String) (id : Nat) (f : ResourceRow) : Bool :=
  f.id == id && f.ownerEmail == userEmail && f.deletedAt == none

/-- `PATCH /files/:id/rename` handler. The permission gate requires `editor`
via `hasPermission`, but the update statement itself is additionally scoped to
`owner_email = caller` and live rows; the update is applied to every matching
row and the response is an error unless exactly one row matched. -/
def renameFile (db : DB) (userEmail : String) (id : Nat) (name : String)
    (now : Int) : RenameResult × DB :=
  if name == "" then (.missingName, db)
  else if !(hasPermission db userEmail .file id "editor") then (.forbidden, db)
  else
    let files' := db.files.map (fun f =>
      if renameRowMatch userEmail id f then { f with name := name, updatedAt := now }
      else f)
    let db' := { db with files := files' }
    match single (files'.filter (renameRowMatch userEmail id)) with
    | some row => (.renamed row, db')
    | none => (.updateError, db')

/-- Error outcomes of `GET /share/link/:token` (`src/routes/share.routes.js`,
lines 316-375). `linkNotFound`, `resourceNotFound` and `fileDeleted` are 404
responses; `expired` and `limitReached` are 410 responses. -/
inductive ResolveError where
  | linkNotFound
  | expired
  | limitReached
  | resourceNotFound
  | fileDeleted
  deriving Repr, DecidableEq

/-- HTTP status the handler sends for each `ResolveError`. -/
def resolveStatus : ResolveError → Nat
  | .linkNotFound => 404
  | .expired => 410
  | .limitReached => 410
  | .resourceNotFound => 404
  | .fileDeleted => 404

/-- Result of `GET /share/link/:token`: an error, or the resource together
with the link echoed back with `access_count` already incremented. -/
inductive ResolveResult where
  | err (e : ResolveError)
  | ok (resource : ResourceRow) (newCount : Nat)
  deriving Repr, DecidableEq

/-- Link lookup by `link_token`, `.single()`. -/
def findLink (db : DB) (token : String) : Option LinkRow :=
  single (db.links.filter (fun l => l.linkToken == token))

/-- Expiry test of the resolve handler:
`sharedLink.expires_at && new Date(sharedLink.expires_at) < new Date()`.
A null `expires_at` is falsy and skips the check. -/
def linkExpired (l : LinkRow) (now : Int) : Bool :=
  match l.expiresAt with
  | none => false
  | some e => e < now

/-- Quota test of the resolve handler:
`sharedLink.max_accesses && sharedLink.access_count >= sharedLink.max_accesses`.
A null or zero `max_accesses` is falsy and skips the check. -/
def linkQuotaReached (l : LinkRow) : Bool :=
  match l.maxAccesses with
  | none => false
  | some m => !(m == 0) && l.accessCount ≥ m

/-- Access-count write of the resolve handler: set `access_count` to the
previously read snapshot plus one on the rows matching the link id. -/
def bumpAccessCount (links : List LinkRow) (linkId : Nat) (snapshot : Nat) :
    List LinkRow :=
  links.map (fun l => if l.id == linkId then { l with accessCount := snapshot + 1 } else l)

/-- `GET /share/link/:token` handler, run as one uninterrupted request: token
lookup, expiry check, quota check, access-count increment, resource fetch, and
the files-only deletion check, in the source's order. The increment has
already happened on the `resourceNotFound` and `fileDeleted` paths. -/
def resolveLink (db : DB) (now : Int) (token : String) : ResolveResult × DB :=
  match findLink db token with
  | none => (.err .linkNotFound, db)
  | some link =>
    if linkExpired link now then (.err .expired, db)
    else if linkQuotaReached link then (.err .limitReached, db)
    else
      let db' := { db with links := bumpAccessCount db.links link.id link.accessCount }
      match findResource db' link.resourceType link.resourceId with
      | none => (.err .resourceNotFound, db')
      | some resource =>
        if link.resourceType == .file && resource.isDeleted then
          (.err .fileDeleted, db')
        else
          (.ok resource (link.accessCount + 1), db')

/-- One breadcrumb entry, `{ id, name }`. -/
structure Crumb where
  id : Nat
  name : String
  deriving Repr, DecidableEq

/-- The `while (currentFolder)` loop of `GET /folders/:id/breadcrumbs`
(`src/unnamed/part_005`, lines 479-501), with explicit fuel standing for the
number of loop iterations still allowed to run. Each iteration unshifts the
current folder onto the accumulator; a null `parent_id` or a failing parent
fetch breaks the loop and the collected list is returned. The source loop has
no iteration bound of its own: `none` means the fuel ran out with the loop
still running, which in the source is the loop simply not having finished yet. -/
def breadcrumbWalk (folders : List ResourceRow) :
    Nat → ResourceRow → List Crumb → Option (List Crumb)
  | 0, _, _ => none
  | n + 1, cur, acc =>
    let acc' := ⟨cur.id, cur.name⟩ :: acc
    match cur.parentId with
    | none => some acc'
    | some pid =>
      match single (folders.filter (fun f => f.id == pid)) with
      | none => some acc'
      | some parent => breadcrumbWalk folders n parent acc'

/-- Grant key equality used by both grant endpoints:
`(resource_type, resource_id, grantee identity)`. -/
def grantKeyMatch (rt : ResourceType) (rid : Nat) (grantee : String)
    (p : PermissionRow) : Bool :=
  p.resourceType == rt && p.resourceId == rid && p.granteeEmail == grantee

/-- Fresh primary key for an inserted permission row (the store's serial id). -/
def freshPermId (db : DB) : Nat :=
  db.permissions.foldr (fun p m => max m (p.id + 1)) 0

/-- Result of either grant endpoint. -/
inductive GrantResult where
  | badRequest
  | forbidden
  | notFound
  | granted
  deriving Repr, DecidableEq

/-- `POST /permissions` (`src/routes/share.routes.js`, lines 58-73): after the
`hasPermission(..., 'owner')` gate, a single upsert on conflict key
`(resource_type, resource_id, grantee_email)` — the existing row's payload is
replaced, otherwise a new row is inserted. -/
def upsertPermission (db : DB) (granter : String) (rt : ResourceType) (rid : Nat)
    (grantee : String) (role : String) : GrantResult × DB :=
  if !(hasPermission db granter rt rid "owner") then (.forbidden, db)
  else
    let db' :=
      if db.permissions.any (grantKeyMatch rt rid grantee) then
        { db with permissions := db.permissions.map (fun p =>
            if grantKeyMatch rt rid grantee p then { p with role := role } else p) }
      else
        { db with permissions := db.permissions ++
            [{ id := freshPermId db, resourceType := rt, resourceId := rid,
               granteeEmail := grantee, role := role, grantedBy := granter }] }
    (.granted, db')

/-- Permission-type whitelist of `POST /share/user`:
`['viewer', 'editor', 'admin'].includes(permissionType)`. -/
def validPermissionType (r : String) : Bool :=
  r == "viewer" || r == "editor" || r == "admin"

/-- `POST /share/user` (`src/routes/share.routes.js`, lines 86-174): validate
the permission type, fetch the resource owner-scoped, then check-then-write —
look up the existing grant row for the key and either update that row (by its
primary key) or insert a new row. -/
def shareUser (db : DB) (granter : String) (rt : ResourceType) (rid : Nat)
    (grantee : String) (permissionType : String) : GrantResult × DB :=
  if !(validPermissionType permissionType) then (.badRequest, db)
  else
    match single ((resourceTable db rt).filter
        (fun r => r.id == rid && r.ownerEmail == granter)) with
    | none => (.notFound, db)
    | some _resource =>
      match single (db.permissions.filter (grantKeyMatch rt rid grantee)) with
      | some existing =>
        (.granted, { db with permissions := db.permissions.map (fun p =>
            if p.id == existing.id then
              { p with role := permissionType, grantedBy := granter }
            else p) })
      | none =>
        (.granted, { db with permissions := db.permissions ++
            [{ id := freshPermId db, resourceType := rt, resourceId := rid,
               granteeEmail := grantee, role := permissionType,
               grantedBy := granter }] })

/-! Interleaving model of concurrent `GET /share/link/:token` requests.

The handler body splits at its `await` points into two steps touching the
shared `access_count` of one link row (expiry left unset, as in the race the
specification describes):
- `read` — the `select ... eq('link_token', ...) .single()`, which snapshots
  the row including `access_count` into the request-local `sharedLink`;
- `checkWrite` — the in-memory quota check against the snapshot, followed on
  success by `update({ access_count: sharedLink.access_count + 1 })`, which
  writes snapshot + 1 regardless of the current stored count.
A scheduler string picks which request advances at each step. -/

/-- Request-local state of one in-flight resolution: the snapshot taken by the
row read, and the response once sent (`some true` success, `some false` the
410 quota response). -/
structure ResolverThread where
  snap : Option Nat
  result : Option Bool
  deriving Repr, DecidableEq

/-- A resolution that has not started: nothing read, nothing answered. -/
def freshResolver : ResolverThread := { snap := none, result := none }

/-- Advance one request by its next pending step, over the shared counter.
A finished request leaves the state unchanged. -/
def resolverStep (maxA : Nat) (count : Nat) (t : ResolverThread) :
    Nat × ResolverThread :=
  match t.snap, t.result with
  | none, none => (count, { t with snap := some count })
  | some s, none =>
    if s ≥ maxA then (count, { t with result := some false })
    else (s + 1, { t with result := some true })
  | _, _ => (count, t)

/-- Run a schedule over two concurrent resolutions of the same link:
`false` advances the first request, `true` the second. -/
def runSchedule (maxA : Nat) :
    List Bool → Nat × ResolverThread × ResolverThread →
    Nat × ResolverThread × ResolverThread
  | [], st => st
  | who :: rest, (count, t1, t2) =>
    if who then
      let (count', t2') := resolverStep maxA count t2
      runSchedule maxA rest (count', t1, t2')
    else
      let (count', t1') := resolverStep maxA count t1
      runSchedule maxA rest (count', t1', t2)

/-! Concrete table fixtures used to evaluate the handlers at specific inputs. -/

/-- Resource-row builder for fixtures (unnamed fields take neutral values). -/
def mkRow (id : Nat) (name ownerEmail : String) (parentId : Option Nat)
    (isDeleted : Bool) (deletedAt : Option Int) : ResourceRow :=
  { id := id, name := name, ownerEmail := ownerEmail, parentId := parentId,
    isStarred := false, isDeleted := isDeleted, deletedAt := deletedAt,
    createdAt := 0, updatedAt := 0 }

/-- A soft-deleted file owned by user `a`. -/
def deletedFileDB : DB :=
  { files := [mkRow 1 "a.txt" "a" none true (some 0)],
    folders := [], permissions := [], links := [] }

/-- Folder 2 is a child of folder 1; both owned by `a`. -/
def childFolderDB : DB :=
  { files := [],
    folders := [mkRow 1 "A" "a" none false none, mkRow 2 "B" "a" (some 1) false none],
    permissions := [], links := [] }

/-- A soft-deleted folder owned by `a`. -/
def trashedFolder : ResourceRow := mkRow 9 "Docs" "a" none true (some 0)

/-- A live public link (no expiry, no quota) pointing at the deleted folder. -/
def linkToDeletedFolderDB : DB :=
  { files := [], folders := [trashedFolder], permissions := [],
    links := [{ id := 1, linkToken := "t", resourceType := .folder, resourceId := 9,
                role := "viewer", expiresAt := none, maxAccesses := none,
                accessCount := 0, createdBy := "a" }] }

/-- A public link (expiry at time 5) pointing at a live folder. -/
def expiringLinkDB : DB :=
  { files := [], folders := [mkRow 9 "Docs" "a" none false none], permissions := [],
    links := [{ id := 2, linkToken := "w", resourceType := .folder, resourceId := 9,
                role := "viewer", expiresAt := some 5, maxAccesses := none,
                accessCount := 0, createdBy := "a" }] }

/-- The file row of `trashedFileDB`, soft-deleted at time 0 by its owner `a`. -/
def trashedFileRow : ResourceRow := mkRow 1 "doc.txt" "a" none true (some 0)

/-- One trashed file owned by `a`, deleted at time 0. -/
def trashedFileDB : DB :=
  { files := [trashedFileRow], folders := [], permissions := [], links := [] }

/-- A live file owned by `a` with an `editor` grant for `b`. -/
def editorGrantDB : DB :=
  { files := [mkRow 1 "a.txt" "a" none false none],
    folders := [], permissions :=
      [{ id := 1, resourceType := .file, resourceId := 1, granteeEmail := "b",
         role := "editor", grantedBy := "a" }],
    links := [] }

/-- Folder 1 owned by `a` containing file 10 (owned by `a`) and file 11
(owned by `b`). -/
def mixedFolderDB : DB :=
  { files := [mkRow 10 "a.txt" "a" (some 1) false none,
              mkRow 11 "b.txt" "b" (some 1) false none],
    folders := [mkRow 1 "Docs" "a" none false none],
    permissions := [], links := [] }

/-- First node of a corrupted two-folder parent cycle: 1 points to 2. -/
def cycF1 : ResourceRow := mkRow 1 "A" "a" (some 2) false none

/-- Second node of the corrupted cycle: 2 points back to 1. -/
def cycF2 : ResourceRow := mkRow 2 "B" "a" (some 1) false none

/-- The corrupted folder table whose parent chain is the cycle 1 -> 2 -> 1. -/
def cycFolders : List ResourceRow := [cycF1, cycF2]

/-- A single resource owned by `a`, used to exercise the grant endpoints. -/
def grantFixtureDB : DB :=
  { files := [mkRow 1 "x" "a" none false none],
    folders := [], permissions := [], links := [] }

/-- Grant roles recorded for a key: the roles of the permission rows matching
`(resourceType, resourceId, grantee)`. -/
def grantRolesFor (db : DB) (rt : ResourceType) (rid : Nat) (grantee : String) :
    List String :=
  (db.permissions.filter (grantKeyMatch rt rid grantee)).map (·.role)

/-! Helper lemmas about `single` and filters, shared by several claims. -/

/-- A successful `.single()` means the filtered list was exactly one row. -/
theorem single_eq_some {α : Type} {l : List α} {x : α} (h : single l = some x) :
    l = [x] := by
  match l with
  | [] => simp [single] at h
  | [a] => simp [single] at h; simp [h]
  | a :: b :: t => simp [single] at h

/-- The row returned by `.single()` over a filter satisfies the filter. -/
theorem single_filter_prop {α : Type} {l : List α} {p : α → Bool} {x : α}
    (h : single (l.filter p) = some x) : x ∈ l ∧ p x = true := by
  have hf := single_eq_some h
  have hx : x ∈ l.filter p := by simp [hf]
  exact ⟨List.mem_of_mem_filter hx, List.of_mem_filter hx⟩

/-- Mapping a row transformer that does not disturb a predicate commutes, on
the rows the transformer is gated to, with filtering by that predicate. -/
theorem filter_map_ite {α : Type} (l : List α) (k g : α → Bool) (s : α → α)
    (hs : ∀ a, k (s a) = k a) (hg : ∀ a, k a = true → g a = true)
    (hg' : ∀ a, k a = false → g a = false) :
    (l.map (fun a => if g a then s a else a)).filter k = (l.filter k).map s := by
  induction l with
  | nil => rfl
  | cons a t ih =>
    by_cases hk : k a = true
    · have hga := hg a hk
      simp [List.filter_cons, List.map_cons, hga, hs a, hk, ih]
    · have hk' : k a = false := by revert hk; cases k a <;> simp
      have hga := hg' a hk'
      simp [List.filter_cons, List.map_cons, hga, hk', ih]

/-- C10: for every query, `getPagination` yields `page >= 1`,
`1 <= pageSize <= 100`, `from = (page - 1) * pageSize`,
`to = from + pageSize - 1`, a non-negative offset, a row range of at most 100
rows, and the documented defaults on an empty query. -/
theorem getPagination_bounds (qp qps : Option Int) :
    1 ≤ (getPagination qp qps).page
    ∧ 1 ≤ (getPagination qp qps).pageSize
    ∧ (getPagination qp qps).pageSize ≤ 100
    ∧ (getPagination qp qps).fromIdx
        = ((getPagination qp qps).page - 1) * (getPagination qp qps).pageSize
    ∧ (getPagination qp qps).toIdx
        = (getPagination qp qps).fromIdx + (getPagination qp qps).pageSize - 1
    ∧ 0 ≤ (getPagination qp qps).fromIdx
    ∧ (getPagination qp qps).toIdx - (getPagination qp qps).fromIdx + 1 ≤ 100
    ∧ getPagination none none = { page := 1, pageSize := 20, fromIdx := 0, toIdx := 19 } := by
  have hpage : 1 ≤ (getPagination qp qps).page := le_max_left _ _
  have hps1 : 1 ≤ (getPagination qp qps).pageSize := by
    have h1 : (1 : Int) ≤ max 1 (parseIntOr qps 20) := le_max_left _ _
    exact le_min (by omega) h1
  have hps2 : (getPagination qp qps).pageSize ≤ 100 := min_le_left _ _
  refine ⟨hpage, hps1, hps2, rfl, rfl, ?_, ?_, by decide⟩
  · exact mul_nonneg (by omega) (by omega)
  · have : (getPagination qp qps).toIdx
        = (getPagination qp qps).fromIdx + (getPagination qp qps).pageSize - 1 := rfl
    omega

/-- C2: with folder 2 a direct child of folder 1, the move handler accepts
moving folder 1 under folder 2 — only `newParentId === id` is rejected, the
destination's ancestor chain is never walked — and the resulting folder table
has the parent cycle 1 -> 2 -> 1. -/
theorem moveFolder_creates_cycle :
    (moveFolder childFolderDB "a" 1 (some 2) 100).1
      = .moved { mkRow 1 "A" "a" none false none with parentId := some 2, updatedAt := 100 }
    ∧ ((moveFolder childFolderDB "a" 1 (some 2) 100).2.folders.filter
        (fun f => f.id == 1)).map (·.parentId) = [some 2]
    ∧ ((moveFolder childFolderDB "a" 1 (some 2) 100).2.folders.filter
        (fun f => f.id == 2)).map (·.parentId) = [some 1] := by
  decide

/-- C3: two concurrent resolutions of a link with `maxAccesses = 1` and
`accessCount = 0`, interleaved read, read, check-and-write, check-and-write,
both pass the quota check against their snapshots and both respond success:
two successful resolutions against a quota of one, with the stored counter at
1. A fully sequential schedule of the same two requests yields one success and
one quota rejection. -/
theorem resolveLink_race_overshoot :
    runSchedule 1 [false, true, false, true] (0, freshResolver, freshResolver)
      = (1, { snap := some 0, result := some true },
            { snap := some 0, result := some true })
    ∧ runSchedule 1 [false, false, true, true] (0, freshResolver, freshResolver)
      = (1, { snap := some 0, result := some true },
            { snap := some 1, result := some false }) := by
  decide

/-- C6: with file 1 owned by `a`, an `editor` grant for `b`, and a live row,
the rename handler's permission gate passes for `b` (editor >= editor), but
the owner-scoped update matches no row, so `b`'s rename answers the 400
update error and the database is unchanged — the grantee path of the claim
never succeeds. -/
theorem renameFile_editor_grantee_fails :
    hasPermission editorGrantDB "b" .file 1 "editor" = true
    ∧ renameFile editorGrantDB "b" 1 "renamed.txt" 50 = (.updateError, editorGrantDB) := by
  decide

/-- C9: on the corrupted two-folder table whose parent chain is the cycle
1 -> 2 -> 1, the breadcrumb while-loop never finishes: for every number of
iterations allowed, starting at either node, the loop is still running (there
is no depth bound and no Internal failure in the handler). -/
theorem breadcrumbWalk_cycle_diverges :
    ∀ (n : Nat) (acc : List Crumb),
      breadcrumbWalk cycFolders n cycF1 acc = none
      ∧ breadcrumbWalk cycFolders n cycF2 acc = none := by
  intro n
  induction n with
  | zero => intro acc; exact ⟨rfl, rfl⟩
  | succ n ih =>
    intro acc
    exact ⟨(ih _).2, (ih _).1⟩

/-- C1 counterexample: the authorization check never looks at the deletion
marker — on a table whose only file is soft-deleted, its owner still passes
`hasPermission` for any required role, against the claim that a deleted
resource resolves to no role. -/
theorem hasPermission_deleted_resource_allowed :
    (deletedFileDB.files.filter (fun r => r.id == 1)).all (·.isDeleted) = true
    ∧ hasPermission deletedFileDB "a" .file 1 "owner" = true := by
  decide

/-- C1 (amended): `hasPermission` is true exactly when the resource row
exists (deleted or not) and the user is its owner or holds a grant whose rank
reaches the required rank; a missing row never satisfies any required role. -/
theorem hasPermission_iff (db : DB) (u : String) (rt : ResourceType) (rid : Nat)
    (required : String) :
    hasPermission db u rt rid required = true ↔
      ∃ r, findResource db rt rid = some r
        ∧ (r.ownerEmail = u
           ∨ ∃ p, findGrant db rt rid u = some p
               ∧ permissionHierarchy p.role ≥ permissionHierarchy required) := by
  unfold hasPermission
  cases hr : findResource db rt rid with
  | none => simp
  | some r =>
    by_cases ho : (r.ownerEmail == u) = true
    · have ho' : r.ownerEmail = u := by simpa using ho
      simp [ho, ho']
    · have hb : (r.ownerEmail == u) = false := by
        revert ho; cases r.ownerEmail == u <;> simp
      have ho' : ¬ r.ownerEmail = u := by simpa using hb
      cases hg : findGrant db rt rid u with
      | none => simp [hb, hg, ho']
      | some p => simp [hb, hg, ho']

/-- Changing only the `shared_links` table does not affect resource lookups. -/
theorem findResource_links_update (db : DB) (links' : List LinkRow)
    (rt : ResourceType) (rid : Nat) :
    findResource { db with links := links' } rt rid = findResource db rt rid := by
  cases rt <;> rfl

/-- C4 counterexample: a valid, unexpired, unexhausted link to a soft-deleted
folder resolves successfully — the deletion check of the resolve handler is
applied to files only, against the claim that a deleted underlying resource
(file or folder) fails NotFound. -/
theorem resolveLink_deleted_folder_resolves :
    trashedFolder.isDeleted = true
    ∧ (resolveLink linkToDeletedFolderDB 0 "t").1 = .ok trashedFolder 1 := by
  decide

/-- C4 (amended): resolution of token `t` fails NotFound when no link matches;
fails Gone when the link is expired, or unexpired but with its quota reached,
both checked before the increment (the store is unchanged on those paths);
otherwise the access count is incremented and the resource fetched — a missing
row fails NotFound, a deleted file fails NotFound, and anything else,
including a soft-deleted folder, resolves successfully. -/
theorem resolveLink_spec (db : DB) (now : Int) (token : String) :
    (findLink db token = none → resolveLink db now token = (.err .linkNotFound, db))
    ∧ (∀ l, findLink db token = some l →
        (linkExpired l now = true → resolveLink db now token = (.err .expired, db))
        ∧ (linkExpired l now = false → linkQuotaReached l = true →
            resolveLink db now token = (.err .limitReached, db))
        ∧ (linkExpired l now = false → linkQuotaReached l = false →
            ((resolveLink db now token).2
              = { db with links := bumpAccessCount db.links l.id l.accessCount }
            ∧ (findResource db l.resourceType l.resourceId = none →
                (resolveLink db now token).1 = .err .resourceNotFound)
            ∧ ∀ r, findResource db l.resourceType l.resourceId = some r →
                ((l.resourceType = .file ∧ r.isDeleted = true) →
                  (resolveLink db now token).1 = .err .fileDeleted)
                ∧ (¬(l.resourceType = .file ∧ r.isDeleted = true) →
                  (resolveLink db now token).1 = .ok r (l.accessCount + 1))))) := by
  refine ⟨?_, ?_⟩
  · intro h
    simp [resolveLink, h]
  · intro l hl
    refine ⟨?_, ?_, ?_⟩
    · intro he
      simp [resolveLink, hl, he]
    · intro he hq
      simp [resolveLink, hl, he, hq]
    · intro he hq
      have hlift : findResource
            { db with links := bumpAccessCount db.links l.id l.accessCount }
            l.resourceType l.resourceId
          = findResource db l.resourceType l.resourceId :=
        findResource_links_update db _ l.resourceType l.resourceId
      refine ⟨?_, ?_, ?_⟩
      · cases hres : findResource db l.resourceType l.resourceId with
        | none => simp [resolveLink, hl, he, hq, hlift, hres]
        | some r =>
          by_cases hdel : (l.resourceType == ResourceType.file && r.isDeleted) = true
          · simp [resolveLink, hl, he, hq, hlift, hres, hdel]
          · have hdel' : (l.resourceType == ResourceType.file && r.isDeleted) = false := by
              revert hdel; cases l.resourceType == ResourceType.file && r.isDeleted <;> simp
            simp [resolveLink, hl, he, hq, hlift, hres, hdel']
      · intro hres
        simp [resolveLink, hl, he, hq, hlift, hres]
      · intro r hres
        constructor
        · rintro ⟨hf, hd⟩
          have hdel : (l.resourceType == ResourceType.file && r.isDeleted) = true := by
            simp [hf, hd]
          simp [resolveLink, hl, he, hq, hlift, hres, hdel]
        · intro hnd
          have hdel : (l.resourceType == ResourceType.file && r.isDeleted) = false := by
            cases hc : l.resourceType == ResourceType.file && r.isDeleted
            · rfl
            · exact absurd (by simpa [Bool.and_eq_true] using hc) hnd
          simp [resolveLink, hl, he, hq, hlift, hres, hdel]

/-- C4 witness: applying `resolveLink_spec` at concrete inputs — the expired
link of `expiringLinkDB` resolved after its expiry answers Gone with the store
untouched, and the link of `linkToDeletedFolderDB` resolves with the access
count bumped to 1. -/
theorem resolveLink_spec_witness :
    resolveLink expiringLinkDB 10 "w" = (.err .expired, expiringLinkDB)
    ∧ (resolveLink linkToDeletedFolderDB 0 "t").2
        = { linkToDeletedFolderDB with
            links := bumpAccessCount linkToDeletedFolderDB.links 1 0 } := by
  constructor
  · exact ((resolveLink_spec expiringLinkDB 10 "w").2
      { id := 2, linkToken := "w", resourceType := .folder, resourceId := 9,
        role := "viewer", expiresAt := some 5, maxAccesses := none,
        accessCount := 0, createdBy := "a" } (by decide)).1 (by decide)
  · exact (((resolveLink_spec linkToDeletedFolderDB 0 "t").2
      { id := 1, linkToken := "t", resourceType := .folder, resourceId := 9,
        role := "viewer", expiresAt := none, maxAccesses := none,
        accessCount := 0, createdBy := "a" } (by decide)).2.2 (by decide) (by decide)).1

/-- C5: restore of a trashed file. A failed owner-scoped trash lookup answers
NotFound, so only the owner of a soft-deleted row can proceed; with the row
found, the handler fails exactly when the deletion instant is strictly older
than thirty days before `now` (so restoring at exactly thirty days succeeds
and one second beyond fails), and on success the row's `is_deleted` and
`deleted_at` are both cleared while every other file row is untouched. -/
theorem restoreFile_spec (db : DB) (u : String) (i : Nat) (now : Int) :
    (findTrashedFile db u i = none → restoreFile db u i now = (.notFoundInTrash, db))
    ∧ ∀ row, findTrashedFile db u i = some row →
        row.ownerEmail = u ∧ row.isDeleted = true
        ∧ (now - row.deletedAt.getD 0 > thirtyDaysMs →
            restoreFile db u i now = (.tooOld, db))
        ∧ (now - row.deletedAt.getD 0 ≤ thirtyDaysMs →
            (restoreFile db u i now).1 = .restored
            ∧ (∀ f ∈ (restoreFile db u i now).2.files,
                f.id = i → f.isDeleted = false ∧ f.deletedAt = none)
            ∧ (∀ f ∈ db.files, f.id ≠ i → f ∈ (restoreFile db u i now).2.files)) := by
  constructor
  · intro h
    simp [restoreFile, h]
  · intro row hrow
    have hprops := single_filter_prop (l := db.files)
      (p := fun f => f.id == i && f.ownerEmail == u && f.isDeleted) hrow
    have hpred := hprops.2
    simp only [Bool.and_eq_true, beq_iff_eq] at hpred
    refine ⟨hpred.1.2, hpred.2, ?_, ?_⟩
    · intro hold
      have hcmp : (row.deletedAt.getD 0 < now - thirtyDaysMs) = True := by
        simp; omega
      simp [restoreFile, hrow, hcmp]
    · intro hyoung
      have hcmp : ¬ (row.deletedAt.getD 0 < now - thirtyDaysMs) := by omega
      have hred : restoreFile db u i now
          = (.restored, { db with files := db.files.map (fun f =>
              if f.id == i then { f with isDeleted := false, deletedAt := none }
              else f) }) := by
        simp [restoreFile, hrow, hcmp]
      refine ⟨by rw [hred], ?_, ?_⟩
      · intro f hf hfid
        rw [hred] at hf
        simp only [List.mem_map] at hf
        obtain ⟨g, _, hg⟩ := hf
        by_cases hgi : (g.id == i) = true
        · rw [if_pos hgi] at hg
          rw [← hg]
          exact ⟨rfl, rfl⟩
        · rw [if_neg hgi] at hg
          subst hg
          exact absurd (by simp [hfid]) hgi
      · intro f hf hfid
        have hne : (f.id == i) = false := by
          cases hc : f.id == i
          · rfl
          · exact absurd (by simpa using hc) hfid
        rw [hred]
        simp only [List.mem_map]
        exact ⟨f, hf, by rw [if_neg (by simp [hne])]⟩

/-- C5 witness: for the file deleted at time 0 in `trashedFileDB`, restoring
at exactly thirty days succeeds, and restoring one second past thirty days
fails with the restore-window error, both via `restoreFile_spec`. -/
theorem restoreFile_spec_witness :
    (restoreFile trashedFileDB "a" 1 thirtyDaysMs).1 = .restored
    ∧ restoreFile trashedFileDB "a" 1 (thirtyDaysMs + 1000) = (.tooOld, trashedFileDB) := by
  constructor
  · exact (((restoreFile_spec trashedFileDB "a" 1 thirtyDaysMs).2 trashedFileRow
      (by decide)).2.2.2 (by decide)).1
  · exact ((restoreFile_spec trashedFileDB "a" 1 (thirtyDaysMs + 1000)).2 trashedFileRow
      (by decide)).2.2.1 (by decide)

/-- C8 counterexample: deleting folder 1 of `mixedFolderDB` removes the
folder's row outright (no row with its id remains, so no soft-delete marker is
set on it), soft-deletes the directly contained file owned by the caller, and
leaves the directly contained file owned by someone else live — against the
claim that the folder row is retained with `isDeleted` set and that every
file directly inside is marked. -/
theorem deleteFolder_removes_folder_row :
    (deleteFolder mixedFolderDB "a" 1 99).1 = .deleted
    ∧ (deleteFolder mixedFolderDB "a" 1 99).2.folders.filter (fun f => f.id == 1) = []
    ∧ ((deleteFolder mixedFolderDB "a" 1 99).2.files.filter
        (fun f => f.id == 10)).map (·.isDeleted) = [true]
    ∧ ((deleteFolder mixedFolderDB "a" 1 99).2.files.filter
        (fun f => f.id == 11)).map (·.isDeleted) = [false] := by
  decide

/-- C8 (amended): when the owner-scoped folder lookup succeeds, the delete
handler reports success, the folder row is physically removed while every
other folder row survives unchanged, each file directly inside the folder and
owned by the caller gets `is_deleted` / `deleted_at` set (all other fields
kept), every other file row is untouched, and the permission and link tables
are untouched. -/
theorem deleteFolder_spec (db : DB) (u : String) (i : Nat) (now : Int)
    (fr : ResourceRow)
    (h : single (db.folders.filter (fun f => f.id == i && f.ownerEmail == u)) = some fr) :
    (deleteFolder db u i now).1 = .deleted
    ∧ (∀ g ∈ (deleteFolder db u i now).2.folders, g ∈ db.folders ∧ g.id ≠ i)
    ∧ (∀ g ∈ db.folders, g.id ≠ i → g ∈ (deleteFolder db u i now).2.folders)
    ∧ (∀ f ∈ db.files, f.parentId = some i → f.ownerEmail = u →
        { f with isDeleted := true, deletedAt := some now }
          ∈ (deleteFolder db u i now).2.files)
    ∧ (∀ f ∈ db.files, ¬(f.parentId = some i ∧ f.ownerEmail = u) →
        f ∈ (deleteFolder db u i now).2.files)
    ∧ (deleteFolder db u i now).2.permissions = db.permissions
    ∧ (deleteFolder db u i now).2.links = db.links := by
  have hred : deleteFolder db u i now
      = (.deleted,
         { db with
           files := db.files.map (fun f =>
             if f.parentId == some i && f.ownerEmail == u then
               { f with isDeleted := true, deletedAt := some now }
             else f),
           folders := db.folders.filter (fun f => !(f.id == i)) }) := by
    simp [deleteFolder, h]
  refine ⟨by rw [hred], ?_, ?_, ?_, ?_, by rw [hred], by rw [hred]⟩
  · intro g hg
    rw [hred] at hg
    have hmem := List.mem_of_mem_filter hg
    have hpred := List.of_mem_filter hg
    refine ⟨hmem, ?_⟩
    simpa using hpred
  · intro g hg hgi
    rw [hred]
    refine List.mem_filter.mpr ⟨hg, by simpa using hgi⟩
  · intro f hf hpar hown
    rw [hred]
    simp only [List.mem_map]
    refine ⟨f, hf, ?_⟩
    rw [if_pos (by simp [hpar, hown])]
  · intro f hf hcond
    rw [hred]
    simp only [List.mem_map]
    refine ⟨f, hf, ?_⟩
    have hb : (f.parentId == some i && f.ownerEmail == u) = false := by
      cases hc : f.parentId == some i && f.ownerEmail == u
      · rfl
      · exact absurd (by simpa [Bool.and_eq_true] using hc) hcond
    rw [if_neg (by simp [hb])]

/-- C8 witness: applying `deleteFolder_spec` to `mixedFolderDB` — the caller's
file inside folder 1 reappears marked deleted at time 99, and the permission
table is unchanged. -/
theorem deleteFolder_spec_witness :
    { mkRow 10 "a.txt" "a" (some 1) false none with
        isDeleted := true, deletedAt := some (99 : Int) }
      ∈ (deleteFolder mixedFolderDB "a" 1 99).2.files
    ∧ (deleteFolder mixedFolderDB "a" 1 99).2.permissions = mixedFolderDB.permissions := by
  constructor
  · exact (deleteFolder_spec mixedFolderDB "a" 1 99
      (mkRow 1 "Docs" "a" none false none) (by decide)).2.2.2.1
      (mkRow 10 "a.txt" "a" (some 1) false none) (by decide) (by decide) (by decide)
  · exact (deleteFolder_spec mixedFolderDB "a" 1 99
      (mkRow 1 "Docs" "a" none false none) (by decide)).2.2.2.2.2.1

/-- Mapping a transformer that never changes a predicate's verdict commutes
with filtering by that predicate. -/
theorem filter_map_pres {α : Type} (l : List α) (k : α → Bool) (f : α → α)
    (hf : ∀ a, k (f a) = k a) :
    (l.map f).filter k = (l.filter k).map f := by
  induction l with
  | nil => rfl
  | cons a t ih =>
    cases hk : k a
    · simp [List.filter_cons, hf a, hk, ih]
    · simp [List.filter_cons, hf a, hk, ih]

/-- A conjunctive filter collapses to a known singleton filter when the extra
conjunct holds on the surviving element. -/
theorem filter_and_of_filter_singleton {α : Type} {l : List α} {p q : α → Bool}
    {x : α} (h : l.filter p = [x]) (hq : q x = true) :
    l.filter (fun a => p a && q a) = [x] := by
  induction l with
  | nil => simp at h
  | cons a t ih =>
    by_cases hp : p a = true
    · rw [List.filter_cons_of_pos hp] at h
      have hax : a = x ∧ t.filter p = [] := by
        constructor
        · exact (List.cons_eq_cons.mp h).1
        · exact (List.cons_eq_cons.mp h).2
      have hnil : t.filter (fun a => p a && q a) = [] := by
        rw [List.filter_eq_nil_iff]
        intro b hb
        have := List.filter_eq_nil_iff.mp hax.2 b hb
        simp only [Bool.and_eq_true]
        intro hcontra
        exact this hcontra.1
      have hqa : q a = true := by rw [hax.1]; exact hq
      rw [List.filter_cons_of_pos (by simp [hp, hqa]), hnil, hax.1]
    · have hp' : p a = false := by revert hp; cases p a <;> simp
      rw [List.filter_cons_of_neg (by simp [hp'])] at h
      rw [List.filter_cons_of_neg (by simp [hp'])]
      exact ih h

/-- Changing only the permission table does not affect resource lookups. -/
theorem findResource_tables_eq (db db2 : DB) (rt : ResourceType) (rid : Nat)
    (hfi : db2.files = db.files) (hfo : db2.folders = db.folders) :
    findResource db2 rt rid = findResource db rt rid := by
  cases rt <;> simp [findResource, resourceTable, hfi, hfo]

/-- Effect of `POST /permissions` on the grant rows of one key, when the
caller passes the owner gate: resource tables are untouched, and the key's
filtered rows become the single upserted row — freshly inserted when the key
was absent, the existing row with its role replaced when present. -/
theorem upsertPermission_effect (db : DB) (granter : String) (rt : ResourceType)
    (rid : Nat) (grantee : String) (role : String)
    (hperm : hasPermission db granter rt rid "owner" = true) :
    (upsertPermission db granter rt rid grantee role).2.files = db.files
    ∧ (upsertPermission db granter rt rid grantee role).2.folders = db.folders
    ∧ (db.permissions.filter (grantKeyMatch rt rid grantee) = [] →
        (upsertPermission db granter rt rid grantee role).2.permissions.filter
            (grantKeyMatch rt rid grantee)
          = [{ id := freshPermId db, resourceType := rt, resourceId := rid,
               granteeEmail := grantee, role := role, grantedBy := granter }])
    ∧ (∀ y, db.permissions.filter (grantKeyMatch rt rid grantee) = [y] →
        (upsertPermission db granter rt rid grantee role).2.permissions.filter
            (grantKeyMatch rt rid grantee)
          = [{ y with role := role }]) := by
  by_cases hany : db.permissions.any (grantKeyMatch rt rid grantee) = true
  · have h1 : upsertPermission db granter rt rid grantee role
        = (.granted, { db with permissions := db.permissions.map (fun p =>
            if grantKeyMatch rt rid grantee p then { p with role := role } else p) }) := by
      simp [upsertPermission, hperm, hany]
    refine ⟨by rw [h1], by rw [h1], ?_, ?_⟩
    · intro hfil
      obtain ⟨x, hxm, hxk⟩ := List.any_eq_true.mp hany
      have : x ∈ db.permissions.filter (grantKeyMatch rt rid grantee) :=
        List.mem_filter.mpr ⟨hxm, hxk⟩
      rw [hfil] at this
      simp at this
    · intro y hfil
      rw [h1]
      have hpres : ∀ a, grantKeyMatch rt rid grantee
          (if grantKeyMatch rt rid grantee a then { a with role := role } else a)
          = grantKeyMatch rt rid grantee a := by
        intro a
        by_cases h : grantKeyMatch rt rid grantee a = true
        · rw [if_pos h]; simp [grantKeyMatch]
        · rw [if_neg h]
      have hky : grantKeyMatch rt rid grantee y = true :=
        List.of_mem_filter (by rw [hfil]; exact List.mem_cons_self y [])
      simp only [filter_map_pres _ _ _ hpres, hfil, List.map_cons, List.map_nil]
      rw [if_pos hky]
  · have h1 : upsertPermission db granter rt rid grantee role
        = (.granted, { db with permissions := db.permissions ++
            [{ id := freshPermId db, resourceType := rt, resourceId := rid,
               granteeEmail := grantee, role := role, grantedBy := granter }] }) := by
      simp [upsertPermission, hperm, hany]
    refine ⟨by rw [h1], by rw [h1], ?_, ?_⟩
    · intro hfil
      rw [h1]
      simp only [List.filter_append, hfil, List.nil_append]
      rw [List.filter_cons_of_pos (by simp [grantKeyMatch])]
      rfl
    · intro y hfil
      exfalso
      have hky : grantKeyMatch rt rid grantee y = true :=
        List.of_mem_filter (by rw [hfil]; exact List.mem_cons_self y [])
      have hym : y ∈ db.permissions :=
        List.mem_of_mem_filter (p := grantKeyMatch rt rid grantee)
          (by rw [hfil]; exact List.mem_cons_self y [])
      exact hany (List.any_eq_true.mpr ⟨y, hym, hky⟩)

/-- Effect of `POST /share/user` on the grant rows of one key, when the
permission type is valid and the owner-scoped resource lookup succeeds:
resource tables are untouched, and the key's rows become the single granted
row — inserted when absent, or the existing row with role and granter
replaced via its primary key when present. -/
theorem shareUser_effect (db : DB) (granter : String) (rt : ResourceType)
    (rid : Nat) (grantee : String) (role : String) (res : ResourceRow)
    (hv : validPermissionType role = true)
    (hre : single ((resourceTable db rt).filter
        (fun r => r.id == rid && r.ownerEmail == granter)) = some res) :
    (shareUser db granter rt rid grantee role).2.files = db.files
    ∧ (shareUser db granter rt rid grantee role).2.folders = db.folders
    ∧ (db.permissions.filter (grantKeyMatch rt rid grantee) = [] →
        (shareUser db granter rt rid grantee role).2.permissions.filter
            (grantKeyMatch rt rid grantee)
          = [{ id := freshPermId db, resourceType := rt, resourceId := rid,
               granteeEmail := grantee, role := role, grantedBy := granter }])
    ∧ (∀ y, db.permissions.filter (grantKeyMatch rt rid grantee) = [y] →
        (shareUser db granter rt rid grantee role).2.permissions.filter
            (grantKeyMatch rt rid grantee)
          = [{ y with role := role, grantedBy := granter }]) := by
  by_cases hex : ∃ y, db.permissions.filter (grantKeyMatch rt rid grantee) = [y]
  · obtain ⟨y, hfil⟩ := hex
    have hsing : single (db.permissions.filter (grantKeyMatch rt rid grantee)) = some y := by
      rw [hfil]; rfl
    have h1 : shareUser db granter rt rid grantee role
        = (.granted, { db with permissions := db.permissions.map (fun p =>
            if p.id == y.id then { p with role := role, grantedBy := granter }
            else p) }) := by
      simp [shareUser, hv, hre, hsing]
    have hpres : ∀ a, grantKeyMatch rt rid grantee
        (if a.id == y.id then { a with role := role, grantedBy := granter } else a)
        = grantKeyMatch rt rid grantee a := by
      intro a
      by_cases h : (a.id == y.id) = true
      · rw [if_pos h]; simp [grantKeyMatch]
      · rw [if_neg h]
    refine ⟨by rw [h1], by rw [h1], ?_, ?_⟩
    · intro hnil
      rw [hnil] at hfil
      simp at hfil
    · intro y' hfil'
      have hyy : y' = y := by
        rw [hfil] at hfil'
        exact (List.cons_eq_cons.mp hfil'.symm).1
      subst hyy
      rw [h1]
      simp only [filter_map_pres _ _ _ hpres, hfil, List.map_cons, List.map_nil]
      rw [if_pos (by simp)]
  · have hsing : single (db.permissions.filter (grantKeyMatch rt rid grantee)) = none := by
      cases hs : single (db.permissions.filter (grantKeyMatch rt rid grantee)) with
      | none => rfl
      | some y => exact absurd ⟨y, single_eq_some hs⟩ hex
    have h1 : shareUser db granter rt rid grantee role
        = (.granted, { db with permissions := db.permissions ++
            [{ id := freshPermId db, resourceType := rt, resourceId := rid,
               granteeEmail := grantee, role := role, grantedBy := granter }] }) := by
      simp [shareUser, hv, hre, hsing]
    refine ⟨by rw [h1], by rw [h1], ?_, ?_⟩
    · intro hfil
      rw [h1]
      simp only [List.filter_append, hfil, List.nil_append]
      rw [List.filter_cons_of_pos (by simp [grantKeyMatch])]
      rfl
    · intro y hfil
      exact absurd ⟨y, hfil⟩ hex

/-- Changing only the permission or link tables does not change the table a
resource lookup scans. -/
theorem resourceTable_eq (db db2 : DB) (rt : ResourceType)
    (hfi : db2.files = db.files) (hfo : db2.folders = db.folders) :
    resourceTable db2 rt = resourceTable db rt := by
  cases rt <;> simp [resourceTable, hfi, hfo]

/-- C7: starting from a permissions table holding at most one grant row for
the key `(resourceType, resourceId, grantee)`, the resource's owner granting
that grantee twice — any two roles, through either endpoint (the atomic
upsert of `POST /permissions`, or the check-then-write of
`POST /share/user`) — leaves exactly one grant row for the key, and its role
is the one granted last. -/
theorem grant_twice_single_row (db : DB) (granter : String) (rt : ResourceType)
    (rid : Nat) (grantee : String) (r1 r2 : String) (res : ResourceRow)
    (hres : findResource db rt rid = some res)
    (hown : res.ownerEmail = granter)
    (hinv : (db.permissions.filter (grantKeyMatch rt rid grantee)).length ≤ 1)
    (hv1 : validPermissionType r1 = true)
    (hv2 : validPermissionType r2 = true) :
    grantRolesFor (upsertPermission (upsertPermission db granter rt rid grantee r1).2
        granter rt rid grantee r2).2 rt rid grantee = [r2]
    ∧ grantRolesFor (shareUser (shareUser db granter rt rid grantee r1).2
        granter rt rid grantee r2).2 rt rid grantee = [r2] := by
  have hfc : db.permissions.filter (grantKeyMatch rt rid grantee) = []
      ∨ ∃ y, db.permissions.filter (grantKeyMatch rt rid grantee) = [y] := by
    cases hfil : db.permissions.filter (grantKeyMatch rt rid grantee) with
    | nil => exact Or.inl rfl
    | cons y ys =>
      right
      refine ⟨y, ?_⟩
      have hlen := hinv
      rw [hfil] at hlen
      have hys : ys.length = 0 := by simpa using hlen
      rw [List.length_eq_zero.mp hys]
  constructor
  · have hperm : hasPermission db granter rt rid "owner" = true := by
      simp [hasPermission, hres, hown]
    have E1 := upsertPermission_effect db granter rt rid grantee r1 hperm
    have hres1 : findResource (upsertPermission db granter rt rid grantee r1).2 rt rid
        = some res := by
      rw [findResource_tables_eq db _ rt rid E1.1 E1.2.1]
      exact hres
    have hperm1 : hasPermission (upsertPermission db granter rt rid grantee r1).2
        granter rt rid "owner" = true := by
      simp [hasPermission, hres1, hown]
    have E2 := upsertPermission_effect (upsertPermission db granter rt rid grantee r1).2
      granter rt rid grantee r2 hperm1
    rcases hfc with hnil | ⟨y, hy⟩
    · have hf1 := E1.2.2.1 hnil
      have hf2 := E2.2.2.2 _ hf1
      simp [grantRolesFor, hf2]
    · have hf1 := E1.2.2.2 y hy
      have hf2 := E2.2.2.2 _ hf1
      simp [grantRolesFor, hf2]
  · have hres' : single ((resourceTable db rt).filter (fun r => r.id == rid))
        = some res := hres
    have hcomb : (resourceTable db rt).filter
        (fun r => r.id == rid && r.ownerEmail == granter) = [res] :=
      filter_and_of_filter_singleton (single_eq_some hres') (by simp [hown])
    have hre : single ((resourceTable db rt).filter
        (fun r => r.id == rid && r.ownerEmail == granter)) = some res := by
      rw [hcomb]; rfl
    have S1 := shareUser_effect db granter rt rid grantee r1 res hv1 hre
    have hre1 : single ((resourceTable (shareUser db granter rt rid grantee r1).2 rt).filter
        (fun r => r.id == rid && r.ownerEmail == granter)) = some res := by
      rw [resourceTable_eq db _ rt S1.1 S1.2.1]
      exact hre
    have S2 := shareUser_effect (shareUser db granter rt rid grantee r1).2
      granter rt rid grantee r2 res hv2 hre1
    rcases hfc with hnil | ⟨y, hy⟩
    · have hf1 := S1.2.2.1 hnil
      have hf2 := S2.2.2.2 _ hf1
      simp [grantRolesFor, hf2]
    · have hf1 := S1.2.2.2 y hy
      have hf2 := S2.2.2.2 _ hf1
      simp [grantRolesFor, hf2]

/-- C7 witness: on `grantFixtureDB` (one file owned by `a`, no grants yet),
owner `a` granting `b` first `viewer` then `editor` leaves, through either
endpoint, exactly the single role `editor` recorded for the key — via
`grant_twice_single_row`. -/
theorem grant_twice_single_row_witness :
    grantRolesFor (upsertPermission (upsertPermission grantFixtureDB "a" .file 1 "b"
        "viewer").2 "a" .file 1 "b" "editor").2 .file 1 "b" = ["editor"]
    ∧ grantRolesFor (shareUser (shareUser grantFixtureDB "a" .file 1 "b"
        "viewer").2 "a" .file 1 "b" "editor").2 .file 1 "b" = ["editor"] :=
  grant_twice_single_row grantFixtureDB "a" .file 1 "b" "viewer" "editor"
    (mkRow 1 "x" "a" none false none)
    (by decide) (by decide) (by decide) (by decide) (by decide)

end DataDock
